import Mathlib

/-!
# verify-proof: a shallow embedding of `src/index.js`

`bindedVerify(proof)` builds a verifier for a proof-of-existence document.  The
verifier exposes two synchronous checks (`isTargetHashValid`, `isMerkleRootValid`),
two checks that suspend on an HTTP request (`isDataHashValid`, `isTxValid`),
`getConfirmations`, the aggregate `analyze`, and the resolved `dataUrl`.

Modelling conventions.

* A thrown exception or a rejected promise is `Except.error`; a returned value or a
  resolved promise is `Except.ok`.
* The closure variable `cachedTx` of `getTx` is the field `TxState.cachedTx`; the ghost
  field `TxState.fetches` counts the `axios.get(txUrl)` requests issued so far.
* The npm packages `crypto` and `merkletree` are parameters (`Lib`); the network
  (`axios`) is a parameter (`World`).
* Calls on a verifier are made one at a time, each when the promise returned by the
  previous one has settled.  `Promise.all` rejects at the first rejection, so `analyze`
  can settle while its lookup is still in flight; the state it hands on is then the one
  a call made at that moment meets: the request is counted, `cachedTx` is not assigned.
* The fields `merkle_root`, `tx_id`, `target_hash` and `extras.leaves` are present in
  every document; `hash_type`, `target_proof` and `extras.dataUrl` may be missing.  A
  successful lookup returns a body with an `out` array and a `block_height`.
-/

set_option maxRecDepth 10000

namespace VerifyProof

/-! ## JavaScript values that flow through the checks -/

/-- Contents of a Node `Buffer` or an `ArrayBuffer`. -/
abbrev Bytes := List (Fin 256)

/-- Values thrown by the runtime and by the libraries, and rejection values of `axios`.
`response status data` is a rejection value with the fields `status` and `data` the
code reads: `status = none` when the field is missing, `data = none` when the body is
not a string (it then has no `match` method). -/
inductive JSError where
  | typeError (msg : String)
  | digestNotSupported (algorithm : String)
  | library (msg : String)
  | response (status : Option Nat) (data : Option String)
  deriving DecidableEq, Repr

deriving instance DecidableEq for Except

/-- Value of `err.status`: only a response-shaped rejection carries one. -/
def JSError.status : JSError → Option Nat
  | .response st _ => st
  | _ => none

/-- Argument of `hash.update(input)`. -/
inductive HashInput where
  | str (s : String)
  | buf (b : Bytes)
  deriving DecidableEq, Repr

/-- Result of a property read that may be `undefined`. -/
inductive JSVal where
  | undefined
  | str (s : String)
  deriving DecidableEq, Repr

/-- String conversion in a template literal. -/
def JSVal.toTemplate : JSVal → String
  | .undefined => "undefined"
  | .str s => s

/-! ## The proof document -/

/-- One entry of `target.target_proof`: a JSON object with string fields, handed to
`verifyProof` untouched. -/
abbrev ProofStep := List (String × String)

/-- Group `header` of the document; `hash_type` is optional. -/
structure Header where
  hash_type : Option String
  merkle_root : String
  tx_id : String
  deriving DecidableEq, Repr

/-- Group `target` of the document; `target_proof` is optional and defaults to `[]`. -/
structure Target where
  target_hash : String
  target_proof : Option (List ProofStep)
  deriving DecidableEq, Repr

/-- An entry of `extras.leaves`: a string (a digest already computed) or a record with
a `data` field. -/
inductive Leaf where
  | digest (s : String)
  | record (data : String)
  deriving DecidableEq, Repr

/-- Group `extras` of the document; `dataUrl` is optional (`null` in the tests). -/
structure Extras where
  leaves : List Leaf
  dataUrl : Option String
  deriving DecidableEq, Repr

/-- A proof document. -/
structure Proof where
  header : Header
  target : Target
  extras : Extras
  deriving DecidableEq, Repr

/-- Argument `_proof` of `bindedVerify`: the document itself or `{ proof: document }`. -/
inductive ProofDoc where
  | bare (p : Proof)
  | envelope (p : Proof)
  deriving DecidableEq, Repr

/-! ## Transactions -/

/-- An element of `out` in a blockchain.info raw transaction. -/
structure BcVout where
  script : String
  deriving DecidableEq, Repr

/-- Body of a blockchain.info `rawtx` response, restricted to the fields read. -/
structure BcTx where
  out : List BcVout
  block_height : Nat
  deriving DecidableEq, Repr

/-- Object `extras` that `blockchainInfoToBlockrFormat` attaches to an output. -/
structure VoutExtras where
  script : String
  deriving DecidableEq, Repr

/-- An element of `tx.vouts`. -/
structure Vout where
  script : String
  extras : Option VoutExtras
  deriving DecidableEq, Repr

/-- Converted transaction kept in `cachedTx`. -/
structure Tx where
  out : List BcVout
  block_height : Nat
  vouts : List Vout
  confirmations : Nat
  deriving DecidableEq, Repr

/-! ## Collaborators -/

/-- Packages `crypto` and `merkletree`.  `createHash alg` is `none` when the digest
method is not supported; otherwise it maps the input of `update` to the hex digest. -/
structure Lib where
  createHash : String → Option (HashInput → String)
  merkleRoot : List String → Except JSError String
  verifyProof : String → String → List ProofStep → Except JSError Bool

/-- Network seen through `axios`.  `getData url` answers the `arraybuffer` request for
the data; `getTx url n` answers the request for the transaction issued when `n`
requests were issued before it; `dataFirst` tells whether, in one `analyze`, the data
check settles before the lookup has answered. -/
structure World where
  getData : String → Except JSError Bytes
  getTx : String → Nat → Except JSError BcTx
  dataFirst : Bool

/-- Mutable state of one verifier. -/
structure TxState where
  cachedTx : Option Tx
  fetches : Nat
  deriving DecidableEq, Repr

/-- State of a verifier right after construction. -/
def TxState.init : TxState := ⟨none, 0⟩

/-! ## `./utils` -/

/-- Modelled from the spec: `endsWith` of `./utils` is absent from the sources; the
spec calls the anchoring test "a string/byte suffix match": `endsWith str suffix` holds
when `str` ends with `suffix`. -/
def endsWith (str suffix : String) : Bool :=
  suffix.data.isSuffixOf str.data

/-- Modelled from the spec: `arrayBufferToBuffer` of `./utils` is absent from the
sources; the spec's data fetch "returns raw bytes", so the conversion keeps the bytes
of `response.data`. -/
def arrayBufferToBuffer (data : Bytes) : Bytes := data

/-! ## String primitives -/

/-- Replace the first occurrence of the character `c` by nothing: what
`s.replace(c, '')` does for a one-character string pattern. -/
def replaceFirstChar (c : Char) : List Char → List Char
  | [] => []
  | x :: xs => if x = c then xs else x :: replaceFirstChar c xs

/-- Method `String.prototype.toLowerCase`, on the letters `A` to `Z`. -/
def toLowerCase (s : String) : String :=
  ⟨s.data.map Char.toLower⟩

/-- Test `str.match(/pat/)` for a pattern of literal characters: truthy exactly when
`pat` occurs in `str`. -/
def matchesLiteral (pat str : List Char) : Bool :=
  str.tails.any (fun t => pat.isPrefixOf t)

/-! ## `bindedVerify` -/

/-- Line 15: `_proof.proof ? _proof.proof : _proof`. -/
def unwrap : ProofDoc → Proof
  | .bare p => p
  | .envelope p => p

/-- Line 7: `proof.extras.leaves[0].data`.  Reading `data` of `undefined` (no leaf)
throws; reading it from a string gives `undefined`. -/
def getSha1 (proof : Proof) : Except JSError JSVal :=
  match proof.extras.leaves with
  | [] => .error (.typeError "Cannot read property data of undefined")
  | .digest _ :: _ => .ok .undefined
  | .record data :: _ => .ok (.str data)

/-- Lines 9-12. -/
def guessDataUrl (proof : Proof) : Except JSError String :=
  let baseUrl := "https://api.binded.com/v1"
  match getSha1 proof with
  | .error e => .error e
  | .ok v => .ok (baseUrl ++ "/registrations/sha1/" ++ v.toTemplate ++ "/download")

/-- Line 30: `extras.dataUrl ? extras.dataUrl : guessDataUrl(proof)`; `null`,
`undefined` and the empty string are falsy. -/
def dataUrl (proof : Proof) : Except JSError String :=
  match proof.extras.dataUrl with
  | some u => if u = "" then guessDataUrl proof else .ok u
  | none => guessDataUrl proof

/-- Line 32: `(hash_type || 'sha256').replace('-', '').toLowerCase()`. -/
def hashAlgorithm (hash_type : Option String) : String :=
  let name := match hash_type with
    | some h => if h = "" then "sha256" else h
    | none => "sha256"
  toLowerCase ⟨replaceFirstChar '-' name.data⟩

/-- What the closures of `bindedVerify` capture. -/
structure Verifier where
  proof : Proof
  hashAlgorithm : String
  dataUrl : String
  deriving DecidableEq, Repr

/-- Lines 14-32 and 195-203: construction of the verifier; it throws when `dataUrl`
cannot be computed. -/
def bindedVerify (doc : ProofDoc) : Except JSError Verifier :=
  let proof := unwrap doc
  match dataUrl proof with
  | .error e => .error e
  | .ok url => .ok ⟨proof, hashAlgorithm proof.header.hash_type, url⟩

/-- Chain `createHash(algorithm).update(input).digest('hex')`: `createHash` throws for
an unsupported digest, `update` throws for `undefined`. -/
def hashHex (L : Lib) (algorithm : String) (input : Option HashInput) :
    Except JSError String :=
  match L.createHash algorithm with
  | none => .error (.digestNotSupported algorithm)
  | some h =>
    match input with
    | none => .error (.typeError "Data must be a string or a buffer")
    | some i => .ok (h i)

/-- A value that may be `undefined`, as an argument of `update`. -/
def JSVal.toInput : JSVal → Option HashInput
  | .undefined => none
  | .str s => some (.str s)

/-- Line 35. -/
def sha1 (L : Lib) (input : HashInput) : Except JSError String :=
  hashHex L "sha1" (some input)

/-- Line 36. -/
def computeHash (L : Lib) (v : Verifier) (input : Option HashInput) :
    Except JSError String :=
  hashHex L v.hashAlgorithm input

/-- Lines 41-46: the `map` over `extras.leaves`; the first throwing callback aborts. -/
def mapLeaves (L : Lib) (v : Verifier) : List Leaf → Except JSError (List String)
  | [] => .ok []
  | maybeLeaf :: rest =>
    let leaf : Except JSError String := match maybeLeaf with
      | .digest s => .ok s
      | .record data => computeHash L v (some (.str data))
    match leaf with
    | .error e => .error e
    | .ok l =>
      match mapLeaves L v rest with
      | .error e => .error e
      | .ok ls => .ok (l :: ls)

/-- Lines 40-50. -/
def isTargetHashValid (L : Lib) (v : Verifier) : Except JSError Bool :=
  match mapLeaves L v v.proof.extras.leaves with
  | .error e => .error e
  | .ok leaves =>
    match L.merkleRoot leaves with
    | .error e => .error e
    | .ok root => .ok (decide (root = v.proof.target.target_hash))

/-- Line 54. -/
def isMerkleRootValid (L : Lib) (v : Verifier) : Except JSError Bool :=
  L.verifyProof v.proof.target.target_hash v.proof.header.merkle_root
    (v.proof.target.target_proof.getD [])

/-- Lines 58-74. -/
def isDataHashValid (L : Lib) (W : World) (v : Verifier) : Except JSError Bool :=
  match W.getData v.dataUrl with
  | .error e => .error e
  | .ok body =>
    let data := arrayBufferToBuffer body
    match getSha1 v.proof with
    | .error e => .error e
    | .ok first =>
      match computeHash L v first.toInput with
      | .error e => .error e
      | .ok expectedDataHash =>
        match sha1 L (.buf data) with
        | .error e => .error e
        | .ok inner =>
          match computeHash L v (some (.str inner)) with
          | .error e => .error e
          | .ok hash => .ok (decide (hash = expectedDataHash))

/-- Lines 93-103. -/
def blockchainInfoToBlockrFormat (bcTx : BcTx) : Tx :=
  { out := bcTx.out
    block_height := bcTx.block_height
    vouts := bcTx.out.map (fun vout => ⟨vout.script, some ⟨vout.script⟩⟩)
    confirmations := bcTx.block_height }

/-- Line 110. -/
def txUrl (v : Verifier) : String :=
  "https://blockchain.info/rawtx/" ++ v.proof.header.tx_id ++ "?cors=true"

/-- Lines 112-119: the `catch` handler on the request. -/
def onRequestError (err : JSError) : JSError :=
  if err.status = some 500 then
    match err with
    | .response _ (some body) =>
      if matchesLiteral "Transaction not found".data body.data
      then .response (some 404) (some body)
      else err
    | _ => .typeError "err.data.match is not a function"
  else err

/-- Lines 105-126. -/
def getTx (W : World) (v : Verifier) (s : TxState) : Except JSError Tx × TxState :=
  match s.cachedTx with
  | some tx => (.ok tx, s)
  | none =>
    match W.getTx (txUrl v) s.fetches with
    | .error err => (.error (onRequestError err), { s with fetches := s.fetches + 1 })
    | .ok data =>
      let tx := blockchainInfoToBlockrFormat data
      (.ok tx, { cachedTx := some tx, fetches := s.fetches + 1 })

/-- Lines 132-139: the loop over `tx.vouts`. -/
def scanOutputs (merkle_root : String) : List Vout → Bool
  | [] => false
  | output :: rest =>
    match output.extras with
    | none => scanOutputs merkle_root rest
    | some extras =>
      if endsWith extras.script merkle_root then true
      else scanOutputs merkle_root rest

/-- Lines 129-145. -/
def isTxValid (W : World) (v : Verifier) (s : TxState) : Except JSError Bool × TxState :=
  match getTx W v s with
  | (.ok tx, s1) => (.ok (scanOutputs v.proof.header.merkle_root tx.vouts), s1)
  | (.error err, s1) =>
    if err.status = some 404 then (.ok false, s1) else (.error err, s1)

/-- Lines 149-156. -/
def getConfirmations (W : World) (v : Verifier) (s : TxState) :
    Except JSError Nat × TxState :=
  match getTx W v s with
  | (.ok tx, s1) => (.ok tx.confirmations, s1)
  | (.error err, s1) =>
    if err.status = some 404 then (.ok 0, s1) else (.error err, s1)

/-- Object `validations` of the report. -/
structure Validations where
  isTargetHashValid : Bool
  isMerkleRootValid : Bool
  isDataHashValid : Bool
  isTxValid : Bool
  deriving DecidableEq, Repr

/-- Value `analyze()` resolves to. -/
structure Report where
  validations : Validations
  confirmations : Nat
  isValid : Bool
  deriving DecidableEq, Repr

/-- Line 187: `Object.keys(validations).every((key) => validations[key])`. -/
def everyValidation (vs : Validations) : Bool :=
  [vs.isTargetHashValid, vs.isMerkleRootValid, vs.isDataHashValid, vs.isTxValid].all id

/-- Lines 159-193.  The four functions are called in key order inside one callback, so
a synchronous throw of one of the first two rejects before the two requests are
started.  `Promise.all` rejects with the rejection that settles first; when that is the
data check and the lookup has not answered yet, `cachedTx` (line 121) is still what it
was when `analyze` rejects. -/
def analyze (L : Lib) (W : World) (v : Verifier) (s : TxState) :
    Except JSError Report × TxState :=
  match isTargetHashValid L v with
  | .error e => (.error e, s)
  | .ok b1 =>
    match isMerkleRootValid L v with
    | .error e => (.error e, s)
    | .ok b2 =>
      match isDataHashValid L W v, isTxValid W v s with
      | .ok b3, (.ok b4, s1) =>
        let validations : Validations := ⟨b1, b2, b3, b4⟩
        match getConfirmations W v s1 with
        | (.error e, s2) => (.error e, s2)
        | (.ok confirmations, s2) =>
          (.ok ⟨validations, confirmations, everyValidation validations⟩, s2)
      | .error e3, (.ok _, s1) =>
        (.error e3, if W.dataFirst then { s1 with cachedTx := s.cachedTx } else s1)
      | .ok _, (.error e4, s1) => (.error e4, s1)
      | .error e3, (.error e4, s1) => (.error (if W.dataFirst then e3 else e4), s1)

/-! ## Sample collaborators and documents -/

/-- A stand-in for `crypto` and `merkletree` that can be evaluated: digests `sha1` and
`sha256` exist and tag their input, the root of a list of leaves is their
concatenation, and a proof with no step verifies when target and root agree. -/
def sampleLib : Lib where
  createHash := fun algorithm =>
    if algorithm = "sha1" ∨ algorithm = "sha256" then
      some (fun input =>
        match input with
        | .str s => algorithm ++ "(" ++ s ++ ")"
        | .buf b => if b = [] then algorithm ++ "()" else algorithm ++ "(..)")
    else none
  merkleRoot := fun leaves => .ok (String.join leaves)
  verifyProof := fun target root steps => .ok (steps.isEmpty && decide (target = root))

/-- A document with one raw-data leaf whose `data` is the sample `sha1` of no bytes,
with an empty branch: the root is the target hash. -/
def sampleProof : Proof where
  header := ⟨some "SHA-256", "sha256(sha1())", "tx1"⟩
  target := ⟨"sha256(sha1())", none⟩
  extras := ⟨[.record "sha1()"], some "http://localhost/text/file"⟩

/-- The verifier `bindedVerify` builds for `sampleProof`. -/
def sampleVerifier : Verifier :=
  ⟨sampleProof, "sha256", "http://localhost/text/file"⟩

/-- A transaction with two outputs, the second of which ends with the root of
`sampleProof`. -/
def sampleTx : BcTx := ⟨[⟨"76a914"⟩, ⟨"6a20sha256(sha1())"⟩], 4097⟩

/-- A network that serves no bytes as the data and `sampleTx` as the transaction. -/
def sampleWorld : World where
  getData := fun _ => .ok []
  getTx := fun _ _ => .ok sampleTx
  dataFirst := true

/-- A network whose explorer answers every lookup with status 500 and the text
`Transaction not found`. -/
def notFoundWorld : World where
  getData := fun _ => .ok []
  getTx := fun _ _ => .error (.response (some 500) (some "Transaction not found"))
  dataFirst := true

/-- A network whose explorer answers every lookup with status 500 and a body that is
not text (a parsed JSON object, or no body at all). -/
def brokenWorld : World where
  getData := fun _ => .ok []
  getTx := fun _ _ => .error (.response (some 500) none)
  dataFirst := true

/-- A document that names a digest the sample `crypto` does not support. -/
def unsupportedProof : Proof where
  header := ⟨some "MD-999", "sha256(sha1())", "tx1"⟩
  target := ⟨"sha256(sha1())", none⟩
  extras := ⟨[.record "sha1()"], some "http://localhost/text/file"⟩

/-- The verifier `bindedVerify` builds for `unsupportedProof`. -/
def unsupportedVerifier : Verifier :=
  ⟨unsupportedProof, "md999", "http://localhost/text/file"⟩

/-- A network whose data request fails with status 404 before the explorer has
answered with `sampleTx`. -/
def dataFailsWorld : World where
  getData := fun _ => .error (.response (some 404) (some "Not Found"))
  getTx := fun _ _ => .ok sampleTx
  dataFirst := true

/-- A document whose first leaf is the string that the sample `sha1` gives for no
bytes, with an explicit `dataUrl`. -/
def sha1LeafProof : Proof where
  header := ⟨some "SHA-256", "sha1()", "tx1"⟩
  target := ⟨"sha1()", none⟩
  extras := ⟨[.digest "sha1()"], some "http://localhost/text/file"⟩

/-- The verifier `bindedVerify` builds for `sha1LeafProof`. -/
def sha1LeafVerifier : Verifier :=
  ⟨sha1LeafProof, "sha256", "http://localhost/text/file"⟩

/-- A document whose first leaf is a digest string and that gives no `dataUrl`. -/
def digestLeafProof : Proof where
  header := ⟨some "SHA-256", "sha256(sha1())", "tx1"⟩
  target := ⟨"sha256(sha1())", none⟩
  extras := ⟨[.digest "sha256(sha1())"], none⟩

/-! ## Vocabulary of the specification -/

/-- The not-found condition of a lookup failure: status 404, or status 500 with a text
body that says `Transaction not found`. -/
def isNotFound : JSError → Bool
  | .response (some 404) _ => true
  | .response (some 500) (some body) =>
    matchesLiteral "Transaction not found".data body.data
  | _ => false

/-- A name with every hyphen removed. -/
def removeHyphens (s : String) : String :=
  ⟨s.data.filter (fun c => c ≠ '-')⟩

/-- Normal form of one leaf under the digest `algorithm`: a digest string is kept, a
raw-data record becomes the digest of its `data`. -/
def NormalisedLeaf (L : Lib) (algorithm : String) (leaf : Leaf) (d : String) : Prop :=
  match leaf with
  | .digest s => d = s
  | .record data => (L.createHash algorithm).map (fun h => h (.str data)) = some d

/-- The same document with another `header.merkle_root`. -/
def Proof.withMerkleRoot (p : Proof) (root : String) : Proof :=
  { p with header := { p.header with merkle_root := root } }

/-- The same argument of `bindedVerify` with another `header.merkle_root`. -/
def ProofDoc.withMerkleRoot : ProofDoc → String → ProofDoc
  | .bare p, root => .bare (p.withMerkleRoot root)
  | .envelope p, root => .envelope (p.withMerkleRoot root)

/-- The verifier `bindedVerify` builds for `sampleProof` with its `merkle_root`
replaced by `"00"`. -/
def tamperedVerifier : Verifier :=
  ⟨sampleProof.withMerkleRoot "00", "sha256", "http://localhost/text/file"⟩

/-- A call a client makes on a verifier after an analysis. -/
inductive Call where
  | analyze
  | isTxValid
  | getConfirmations
  deriving DecidableEq, Repr

/-- State of the verifier after one call. -/
def runCall (L : Lib) (W : World) (v : Verifier) (s : TxState) : Call → TxState
  | .analyze => (analyze L W v s).2
  | .isTxValid => (isTxValid W v s).2
  | .getConfirmations => (getConfirmations W v s).2

/-- State of the verifier after a sequence of calls, each started when the previous one
has settled. -/
def runCalls (L : Lib) (W : World) (v : Verifier) (s : TxState) (calls : List Call) :
    TxState :=
  calls.foldl (runCall L W v) s

/-! ## Shared lemmas -/

/-- The modelled `endsWith` is the suffix relation on strings. -/
theorem endsWith_iff (str suffix : String) :
    endsWith str suffix = true ↔ ∃ pre : String, str = pre ++ suffix := by
  unfold endsWith
  rw [List.isSuffixOf_iff_suffix]
  constructor
  · rintro ⟨t, ht⟩
    exact ⟨⟨t⟩, String.ext (by simpa using ht.symm)⟩
  · rintro ⟨pre, rfl⟩
    exact ⟨pre.data, by simp⟩

/-- On a converted transaction the loop of `isTxValid` looks at every output script. -/
theorem scanOutputs_converted (root : String) (out : List BcVout) (height : Nat) :
    scanOutputs root (blockchainInfoToBlockrFormat ⟨out, height⟩).vouts
      = out.any (fun o => endsWith o.script root) := by
  simp only [blockchainInfoToBlockrFormat]
  induction out with
  | nil => rfl
  | cons o rest ih =>
    simp only [List.map_cons, scanOutputs, List.any_cons, ih]
    cases endsWith o.script root <;> simp

/-- The sample verifier is the one `bindedVerify` builds for the sample document, bare
or in an envelope. -/
theorem bindedVerify_sampleProof :
    bindedVerify (.bare sampleProof) = .ok sampleVerifier ∧
    bindedVerify (.envelope sampleProof) = .ok sampleVerifier := by
  decide

/-- A script that holds the root at its start or in its middle only is not anchored. -/
theorem root_not_at_end_is_not_anchored :
    scanOutputs "beef" (blockchainInfoToBlockrFormat ⟨[⟨"beef00"⟩, ⟨"6abeef88"⟩], 7⟩).vouts
      = false ∧
    scanOutputs "beef" (blockchainInfoToBlockrFormat ⟨[⟨"beef00"⟩, ⟨"6a04beef"⟩], 7⟩).vouts
      = true := by
  decide

/-! ## C1 -/

/-- C1: when the four checks resolve, `analyze` resolves as soon as the confirmation
lookup does, the report carries the four verdicts under `validations`, and `isValid` is
true exactly when all four verdicts are true. -/
theorem analyze_reports_four_verdicts (L : Lib) (W : World) (v : Verifier)
    (s s1 : TxState) (b1 b2 b3 b4 : Bool)
    (h1 : isTargetHashValid L v = .ok b1) (h2 : isMerkleRootValid L v = .ok b2)
    (h3 : isDataHashValid L W v = .ok b3) (h4 : isTxValid W v s = (.ok b4, s1)) :
    (∀ c s2, getConfirmations W v s1 = (.ok c, s2) →
      analyze L W v s = (.ok ⟨⟨b1, b2, b3, b4⟩, c, b1 && b2 && b3 && b4⟩, s2)) ∧
    (∀ r s2, analyze L W v s = (.ok r, s2) →
      r.validations = ⟨b1, b2, b3, b4⟩ ∧
      (r.isValid = true ↔ b1 = true ∧ b2 = true ∧ b3 = true ∧ b4 = true)) := by
  constructor
  · intro c s2 hc
    simp [analyze, h1, h2, h3, h4, hc, everyValidation, Bool.and_assoc]
  · intro r s2 hr
    rcases hg : getConfirmations W v s1 with ⟨_ | c, s3⟩
    · simp [analyze, h1, h2, h3, h4, hg] at hr
    · simp only [analyze, h1, h2, h3, h4, hg, Prod.mk.injEq, Except.ok.injEq] at hr
      obtain ⟨rfl, -⟩ := hr
      simp [everyValidation, and_assoc]

/-- C1 at the sample document: all four verdicts are true and so is `isValid`. -/
theorem analyze_reports_four_verdicts_witness :
    analyze sampleLib sampleWorld sampleVerifier TxState.init
      = (.ok ⟨⟨true, true, true, true⟩, 4097, true && true && true && true⟩,
         ⟨some (blockchainInfoToBlockrFormat sampleTx), 1⟩) :=
  (analyze_reports_four_verdicts sampleLib sampleWorld sampleVerifier TxState.init
    ⟨some (blockchainInfoToBlockrFormat sampleTx), 1⟩ true true true true
    (by decide) (by decide) (by decide) (by decide)).1 4097 _ (by decide)

/-! ## C2 -/

/-- C2: when the lookup yields the record `rec`, `isTxValid` resolves, and it resolves
to true exactly when some output script of `rec` ends with `merkle_root`; a record none
of whose scripts ends with it gives false wherever else the root occurs. -/
theorem isTxValid_iff_script_ends_with_root (W : World) (v : Verifier)
    (s s1 : TxState) (rec : BcTx)
    (h : getTx W v s = (.ok (blockchainInfoToBlockrFormat rec), s1)) :
    ∃ b, isTxValid W v s = (.ok b, s1) ∧
      (b = true ↔ ∃ o ∈ rec.out, ∃ pre : String,
        o.script = pre ++ v.proof.header.merkle_root) ∧
      ((∀ o ∈ rec.out, ¬ ∃ pre : String,
        o.script = pre ++ v.proof.header.merkle_root) → b = false) := by
  have hb : ∀ b, b = rec.out.any (fun o => endsWith o.script v.proof.header.merkle_root) →
      (b = true ↔ ∃ o ∈ rec.out, ∃ pre : String,
        o.script = pre ++ v.proof.header.merkle_root) := by
    rintro b rfl
    simp only [List.any_eq_true, endsWith_iff]
  refine ⟨rec.out.any (fun o => endsWith o.script v.proof.header.merkle_root), ?_,
    hb _ rfl, ?_⟩
  · cases rec with
    | mk out height => simp only [isTxValid, h, scanOutputs_converted]
  · intro hno
    rw [Bool.eq_false_iff]
    intro ht
    obtain ⟨o, ho, hpre⟩ := (hb _ rfl).1 ht
    exact hno o ho hpre

/-- C2 at the sample transaction: the root stands at the end of the second script. -/
theorem isTxValid_iff_script_ends_with_root_witness :
    ∃ b, isTxValid sampleWorld sampleVerifier TxState.init
        = (.ok b, ⟨some (blockchainInfoToBlockrFormat sampleTx), 1⟩) ∧
      (b = true ↔ ∃ o ∈ sampleTx.out, ∃ pre : String,
        o.script = pre ++ sampleVerifier.proof.header.merkle_root) ∧
      ((∀ o ∈ sampleTx.out, ¬ ∃ pre : String,
        o.script = pre ++ sampleVerifier.proof.header.merkle_root) → b = false) :=
  isTxValid_iff_script_ends_with_root sampleWorld sampleVerifier TxState.init
    ⟨some (blockchainInfoToBlockrFormat sampleTx), 1⟩ sampleTx (by decide)

/-! ## Lookup failures -/

/-- The `catch` handler turns every not-found failure into one with status 404. -/
theorem onRequestError_of_notFound (e : JSError) (h : isNotFound e = true) :
    (onRequestError e).status = some 404 := by
  unfold isNotFound at h
  split at h
  · simp [onRequestError, JSError.status]
  · simp [onRequestError, JSError.status, h]
  · simp at h

/-- The `catch` handler leaves alone every failure that is not not-found, provided its
body is text whenever its status is 500. -/
theorem onRequestError_of_other (e : JSError) (h : isNotFound e = false)
    (htext : e.status = some 500 → ∃ body, e = .response (some 500) (some body)) :
    onRequestError e = e ∧ e.status ≠ some 404 := by
  by_cases h5 : e.status = some 500
  · obtain ⟨body, rfl⟩ := htext h5
    simp only [isNotFound] at h
    simp [onRequestError, JSError.status, h]
  · refine ⟨by simp [onRequestError, h5], ?_⟩
    intro h4
    cases e with
    | response st d =>
      simp only [JSError.status] at h4
      subst h4
      simp [isNotFound] at h
    | _ => simp [JSError.status] at h4

/-- A not-found failure makes `isTxValid` resolve to false and `getConfirmations` to 0,
and leaves the cache empty. -/
theorem not_found_resolves (W : World) (v : Verifier) (s : TxState) (e : JSError)
    (hc : s.cachedTx = none) (hf : W.getTx (txUrl v) s.fetches = .error e)
    (hnf : isNotFound e = true) :
    isTxValid W v s = (.ok false, ⟨none, s.fetches + 1⟩) ∧
    getConfirmations W v s = (.ok 0, ⟨none, s.fetches + 1⟩) := by
  have h404 := onRequestError_of_notFound e hnf
  cases s with
  | mk cached n =>
    simp only at hc hf
    subst hc
    simp [isTxValid, getConfirmations, getTx, hf, h404]

/-- Any other failure with a text body is handed on unchanged by both checks. -/
theorem other_error_rejects (W : World) (v : Verifier) (s : TxState) (e : JSError)
    (hc : s.cachedTx = none) (hf : W.getTx (txUrl v) s.fetches = .error e)
    (hnf : isNotFound e = false)
    (htext : e.status = some 500 → ∃ body, e = .response (some 500) (some body)) :
    isTxValid W v s = (.error e, ⟨none, s.fetches + 1⟩) ∧
    getConfirmations W v s = (.error e, ⟨none, s.fetches + 1⟩) := by
  obtain ⟨hsame, hne⟩ := onRequestError_of_other e hnf htext
  cases s with
  | mk cached n =>
    simp only at hc hf
    subst hc
    simp [isTxValid, getConfirmations, getTx, hf, hsame, hne]

/-! ## C3 -/

/-- C3, at a lookup that fails with status 500 and a body that is not text: the failure
is not the not-found condition, yet `isTxValid` and `getConfirmations` reject with a
`TypeError` raised by `err.data.match`, not with the failure itself. -/
theorem status_500_without_text_body_is_masked :
    isNotFound (.response (some 500) none) = false ∧
    brokenWorld.getTx (txUrl sampleVerifier) 0 = .error (.response (some 500) none) ∧
    isTxValid brokenWorld sampleVerifier TxState.init
      = (.error (.typeError "err.data.match is not a function"), ⟨none, 1⟩) ∧
    getConfirmations brokenWorld sampleVerifier TxState.init
      = (.error (.typeError "err.data.match is not a function"), ⟨none, 1⟩) ∧
    JSError.typeError "err.data.match is not a function" ≠ .response (some 500) none := by
  decide

/-! ## The transaction cache -/

/-- With a record in the cache `getTx` answers from it and issues no request. -/
theorem getTx_cached (W : World) (v : Verifier) (s : TxState) (tx : Tx)
    (h : s.cachedTx = some tx) : getTx W v s = (.ok tx, s) := by
  simp [getTx, h]

/-- With an empty cache and a successful lookup `getTx` issues one request and caches
the converted record. -/
theorem getTx_fresh (W : World) (v : Verifier) (s : TxState) (rec : BcTx)
    (hc : s.cachedTx = none) (hf : W.getTx (txUrl v) s.fetches = .ok rec) :
    getTx W v s = (.ok (blockchainInfoToBlockrFormat rec),
      ⟨some (blockchainInfoToBlockrFormat rec), s.fetches + 1⟩) := by
  simp [getTx, hc, hf]

/-- With a record in the cache no call changes the state of the verifier. -/
theorem runCall_cached (L : Lib) (W : World) (v : Verifier) (s : TxState) (tx : Tx)
    (h : s.cachedTx = some tx) (c : Call) : runCall L W v s c = s := by
  have hg := getTx_cached W v s tx h
  have ht : isTxValid W v s = (.ok (scanOutputs v.proof.header.merkle_root tx.vouts), s) := by
    simp [isTxValid, hg]
  have hcf : getConfirmations W v s = (.ok tx.confirmations, s) := by
    simp [getConfirmations, hg]
  cases c with
  | isTxValid => simp [runCall, ht]
  | getConfirmations => simp [runCall, hcf]
  | analyze =>
    simp only [runCall, analyze]
    cases isTargetHashValid L v <;> cases isMerkleRootValid L v <;>
      cases isDataHashValid L W v <;> simp [ht, hcf]

/-- With a record in the cache no sequence of calls changes the state. -/
theorem runCalls_cached (L : Lib) (W : World) (v : Verifier) (s : TxState) (tx : Tx)
    (h : s.cachedTx = some tx) (calls : List Call) : runCalls L W v s calls = s := by
  induction calls with
  | nil => rfl
  | cons c rest ih =>
    simp only [runCalls, List.foldl_cons, runCall_cached L W v s tx h c]
    exact ih

/-! ## C4 -/

/-- C4, counterexample.  First verifier: its lookup succeeds (a direct `isTxValid`
resolves after one request), but its digest is not supported, so `analyze` rejects in
the synchronous `isTargetHashValid` and issues no request at all.  Second verifier: its
data request fails before the lookup has answered, so `analyze` rejects after one
request with `cachedTx` still unassigned, and the `isTxValid` call that follows issues a
second request. -/
theorem analyze_without_fetch :
    bindedVerify (.bare unsupportedProof) = .ok unsupportedVerifier ∧
    sampleWorld.getTx (txUrl unsupportedVerifier) 0 = .ok sampleTx ∧
    isTxValid sampleWorld unsupportedVerifier TxState.init
      = (.ok true, ⟨some (blockchainInfoToBlockrFormat sampleTx), 1⟩) ∧
    analyze sampleLib sampleWorld unsupportedVerifier TxState.init
      = (.error (.digestNotSupported "md999"), ⟨none, 0⟩) ∧
    dataFailsWorld.getTx (txUrl sampleVerifier) 0 = .ok sampleTx ∧
    analyze sampleLib dataFailsWorld sampleVerifier TxState.init
      = (.error (.response (some 404) (some "Not Found")), ⟨none, 1⟩) ∧
    isTxValid dataFailsWorld sampleVerifier
        (analyze sampleLib dataFailsWorld sampleVerifier TxState.init).2
      = (.ok true, ⟨some (blockchainInfoToBlockrFormat sampleTx), 2⟩) := by
  decide

/-- C4, amended: when the two synchronous checks return, the data check does not reject
before the lookup has answered (it resolves, or the lookup settles first), and the
lookup succeeds, one `analyze` issues exactly one request and caches the converted
record, the report (when there is one) takes its confirmations from that record, and
after any sequence of later `analyze`, `isTxValid` and `getConfirmations` calls, made
once that `analyze` has settled, the request count is unchanged and `getTx` still yields
the same record. -/
theorem analyze_fetches_once_then_reuses_cache (L : Lib) (W : World) (v : Verifier)
    (s : TxState) (rec : BcTx) (b1 b2 : Bool)
    (hc : s.cachedTx = none) (hf : W.getTx (txUrl v) s.fetches = .ok rec)
    (h1 : isTargetHashValid L v = .ok b1) (h2 : isMerkleRootValid L v = .ok b2)
    (hd : W.dataFirst = false ∨ ∃ b3, isDataHashValid L W v = .ok b3) :
    (analyze L W v s).2 = ⟨some (blockchainInfoToBlockrFormat rec), s.fetches + 1⟩ ∧
    (∀ r, (analyze L W v s).1 = .ok r → r.confirmations = rec.block_height) ∧
    ∀ calls : List Call,
      runCalls L W v (analyze L W v s).2 calls
        = ⟨some (blockchainInfoToBlockrFormat rec), s.fetches + 1⟩ ∧
      getTx W v (runCalls L W v (analyze L W v s).2 calls)
        = (.ok (blockchainInfoToBlockrFormat rec),
           ⟨some (blockchainInfoToBlockrFormat rec), s.fetches + 1⟩) := by
  have hg := getTx_fresh W v s rec hc hf
  have hg1 := getTx_cached W v ⟨some (blockchainInfoToBlockrFormat rec), s.fetches + 1⟩
    (blockchainInfoToBlockrFormat rec) rfl
  have hs : (analyze L W v s).2
      = ⟨some (blockchainInfoToBlockrFormat rec), s.fetches + 1⟩ := by
    simp only [analyze, h1, h2, isTxValid, hg]
    cases hdata : isDataHashValid L W v with
    | ok b3 => simp [getConfirmations, hg1]
    | error e3 =>
      rcases hd with hfirst | ⟨b3, hb3⟩
      · simp [hfirst]
      · rw [hdata] at hb3
        cases hb3
  refine ⟨hs, ?_, ?_⟩
  · intro r hr
    simp only [analyze, h1, h2, isTxValid, hg] at hr
    cases hdata : isDataHashValid L W v with
    | error e => simp [hdata] at hr
    | ok b3 =>
      simp only [hdata, getConfirmations, hg1, Except.ok.injEq] at hr
      subst hr
      rfl
  · intro calls
    rw [hs, runCalls_cached L W v _ (blockchainInfoToBlockrFormat rec) rfl calls]
    exact ⟨rfl, hg1⟩

/-- C4, amended, at the sample document: one request, then none for three more calls. -/
theorem analyze_fetches_once_then_reuses_cache_witness :
    (analyze sampleLib sampleWorld sampleVerifier TxState.init).2
      = ⟨some (blockchainInfoToBlockrFormat sampleTx), 0 + 1⟩ ∧
    runCalls sampleLib sampleWorld sampleVerifier
        (analyze sampleLib sampleWorld sampleVerifier TxState.init).2
        [.analyze, .isTxValid, .getConfirmations]
      = ⟨some (blockchainInfoToBlockrFormat sampleTx), 0 + 1⟩ :=
  have h := analyze_fetches_once_then_reuses_cache sampleLib sampleWorld sampleVerifier
    TxState.init sampleTx true true (by decide) (by decide) (by decide) (by decide)
    (Or.inr ⟨true, by decide⟩)
  ⟨h.1, (h.2.2 [.analyze, .isTxValid, .getConfirmations]).1⟩

/-! ## C5 -/

/-- C5, counterexample: with an explorer that reports not-found, one `analyze` resolves
with an empty cache after two requests, one by `isTxValid` and one by
`getConfirmations`. -/
theorem not_found_analysis_fetches_twice :
    isNotFound (.response (some 500) (some "Transaction not found")) = true ∧
    analyze sampleLib notFoundWorld sampleVerifier TxState.init
      = (.ok ⟨⟨true, true, true, false⟩, 0, false⟩, ⟨none, 2⟩) ∧
    ¬ (analyze sampleLib notFoundWorld sampleVerifier TxState.init).2.fetches ≤ 1 := by
  decide

/-- C5, amended: a not-found outcome is not cached.  `isTxValid` resolves to false and
leaves the cache empty, a repeated `isTxValid` issues a further request, and an
`analyze` whose other three checks resolve issues two requests, the second one by
`getConfirmations`, and reports `isTxValid = false` and 0 confirmations. -/
theorem not_found_is_looked_up_again (L : Lib) (W : World) (v : Verifier)
    (s : TxState) (e e2 : JSError) (b1 b2 b3 : Bool)
    (hc : s.cachedTx = none)
    (hf : W.getTx (txUrl v) s.fetches = .error e) (hnf : isNotFound e = true)
    (hf2 : W.getTx (txUrl v) (s.fetches + 1) = .error e2) (hnf2 : isNotFound e2 = true)
    (h1 : isTargetHashValid L v = .ok b1) (h2 : isMerkleRootValid L v = .ok b2)
    (h3 : isDataHashValid L W v = .ok b3) :
    isTxValid W v s = (.ok false, ⟨none, s.fetches + 1⟩) ∧
    isTxValid W v ⟨none, s.fetches + 1⟩ = (.ok false, ⟨none, s.fetches + 2⟩) ∧
    analyze L W v s = (.ok ⟨⟨b1, b2, b3, false⟩, 0, false⟩, ⟨none, s.fetches + 2⟩) := by
  have ha := not_found_resolves W v s e hc hf hnf
  have hb := not_found_resolves W v ⟨none, s.fetches + 1⟩ e2 rfl hf2 hnf2
  refine ⟨ha.1, hb.1, ?_⟩
  simp [analyze, h1, h2, h3, ha.1, hb.2, everyValidation]

/-- C5, amended, at the sample document with an explorer that reports not-found. -/
theorem not_found_is_looked_up_again_witness :
    isTxValid notFoundWorld sampleVerifier TxState.init = (.ok false, ⟨none, 0 + 1⟩) ∧
    isTxValid notFoundWorld sampleVerifier ⟨none, 0 + 1⟩ = (.ok false, ⟨none, 0 + 2⟩) ∧
    analyze sampleLib notFoundWorld sampleVerifier TxState.init
      = (.ok ⟨⟨true, true, true, false⟩, 0, false⟩, ⟨none, 0 + 2⟩) :=
  not_found_is_looked_up_again sampleLib notFoundWorld sampleVerifier TxState.init
    (.response (some 500) (some "Transaction not found"))
    (.response (some 500) (some "Transaction not found")) true true true
    (by decide) (by decide) (by decide) (by decide) (by decide) (by decide) (by decide)
    (by decide)

/-! ## C6 -/

/-- When the data request returns `bytes`, `isDataHashValid` resolves to true exactly
when the first leaf is a record with a `data` field `d` and the configured digest of the
SHA-1 hex digest of `bytes` equals the configured digest of `d`; whenever both digests
are supported it resolves to the outcome of that comparison.  SHA-1 is applied to the
fetched bytes only, the configured digest to both sides. -/
theorem isDataHashValid_of_record_leaf (L : Lib) (W : World) (v : Verifier)
    (bytes : Bytes) (hf : W.getData v.dataUrl = .ok bytes) :
    (isDataHashValid L W v = .ok true ↔
      ∃ d hs ha, v.proof.extras.leaves.head? = some (.record d) ∧
        L.createHash "sha1" = some hs ∧ L.createHash v.hashAlgorithm = some ha ∧
        ha (.str (hs (.buf bytes))) = ha (.str d)) ∧
    (∀ d hs ha, v.proof.extras.leaves.head? = some (.record d) →
      L.createHash "sha1" = some hs → L.createHash v.hashAlgorithm = some ha →
      isDataHashValid L W v
        = .ok (decide (ha (.str (hs (.buf bytes))) = ha (.str d)))) := by
  have key : ∀ d hs ha, v.proof.extras.leaves.head? = some (.record d) →
      L.createHash "sha1" = some hs → L.createHash v.hashAlgorithm = some ha →
      isDataHashValid L W v
        = .ok (decide (ha (.str (hs (.buf bytes))) = ha (.str d))) := by
    intro d hs ha hd h1 ha2
    cases hl : v.proof.extras.leaves with
    | nil => simp [hl] at hd
    | cons leaf rest =>
      simp only [hl, List.head?_cons, Option.some.injEq] at hd
      subst hd
      simp [isDataHashValid, hf, arrayBufferToBuffer, getSha1, hl, computeHash, sha1,
        hashHex, h1, ha2, JSVal.toInput]
  refine ⟨⟨?_, ?_⟩, key⟩
  · intro h
    cases hl : v.proof.extras.leaves with
    | nil => simp [isDataHashValid, hf, getSha1, hl] at h
    | cons leaf rest =>
      cases leaf with
      | digest str =>
        cases ha : L.createHash v.hashAlgorithm <;>
          simp [isDataHashValid, hf, getSha1, hl, computeHash, hashHex, ha,
            JSVal.toInput] at h
      | record d =>
        cases ha : L.createHash v.hashAlgorithm with
        | none =>
          simp [isDataHashValid, hf, getSha1, hl, computeHash, hashHex, ha,
            JSVal.toInput] at h
        | some fa =>
          cases h1 : L.createHash "sha1" with
          | none =>
            simp [isDataHashValid, hf, getSha1, hl, computeHash, hashHex, ha, sha1, h1,
              JSVal.toInput] at h
          | some fs =>
            have hk := key d fs fa (by simp [hl]) h1 ha
            rw [hk] at h
            exact ⟨d, fs, fa, rfl, rfl, rfl, by simpa using h⟩
  · rintro ⟨d, hs, ha, hd, h1, ha2, heq⟩
    rw [key d hs ha hd h1 ha2]
    simp [heq]

/-- C6, at a document whose first leaf is a digest string equal to the SHA-1 hex digest
of the fetched bytes: the configured digest of the SHA-1 hex digest of the bytes equals
the configured digest of the first leaf, yet `isDataHashValid` does not resolve to true:
`getSha1` reads `data` of the string, and `update(undefined)` throws. -/
theorem isDataHashValid_rejects_digest_leaf :
    bindedVerify (.bare sha1LeafProof) = .ok sha1LeafVerifier ∧
    sampleWorld.getData sha1LeafVerifier.dataUrl = .ok [] ∧
    sha1LeafVerifier.proof.extras.leaves.head? = some (.digest "sha1()") ∧
    sha1 sampleLib (.buf []) = .ok "sha1()" ∧
    computeHash sampleLib sha1LeafVerifier (some (.str "sha1()")) = .ok "sha256(sha1())" ∧
    isDataHashValid sampleLib sampleWorld sha1LeafVerifier
      = .error (.typeError "Data must be a string or a buffer") ∧
    isTargetHashValid sampleLib sha1LeafVerifier = .ok true := by
  decide

/-! ## C7 -/

/-- The `map` of `isTargetHashValid` returns exactly the normal forms of the leaves, in
the order of the leaves. -/
theorem mapLeaves_eq_ok_iff (L : Lib) (v : Verifier) (leaves : List Leaf)
    (out : List String) :
    mapLeaves L v leaves = .ok out ↔
      List.Forall₂ (NormalisedLeaf L v.hashAlgorithm) leaves out := by
  induction leaves generalizing out with
  | nil =>
    cases out <;> simp [mapLeaves]
  | cons leaf rest ih =>
    cases out with
    | nil =>
      simp only [List.forall₂_nil_right_iff, reduceCtorEq, iff_false]
      cases leaf <;> simp only [mapLeaves, computeHash, hashHex] <;>
        repeat (first | split | simp)
    | cons d ds =>
      rw [List.forall₂_cons, ← ih]
      cases leaf with
      | digest str =>
        simp only [mapLeaves, NormalisedLeaf]
        cases mapLeaves L v rest <;> simp [eq_comm]
      | record data =>
        simp only [mapLeaves, NormalisedLeaf, computeHash, hashHex]
        cases L.createHash v.hashAlgorithm <;> cases mapLeaves L v rest <;> simp

/-- C7: `isTargetHashValid` returns true exactly when the Merkle root of the normalised
leaves, in input order, is `target_hash`; a digest string is normalised to itself and a
raw-data record to the configured digest of its `data`, with no SHA-1 step. -/
theorem isTargetHashValid_iff_root_of_normalised_leaves (L : Lib) (v : Verifier) :
    isTargetHashValid L v = .ok true ↔
      ∃ leaves, List.Forall₂ (NormalisedLeaf L v.hashAlgorithm) v.proof.extras.leaves leaves ∧
        L.merkleRoot leaves = .ok v.proof.target.target_hash := by
  simp only [← mapLeaves_eq_ok_iff]
  unfold isTargetHashValid
  constructor
  · intro h
    cases hm : mapLeaves L v v.proof.extras.leaves with
    | error e => simp [hm] at h
    | ok leaves =>
      cases hr : L.merkleRoot leaves with
      | error e => simp [hm, hr] at h
      | ok root =>
        simp only [hm, hr, Except.ok.injEq, decide_eq_true_eq] at h
        exact ⟨leaves, rfl, by rw [hr, h]⟩
  · rintro ⟨leaves, hm, hr⟩
    simp [hm, hr]

/-! ## C8 -/

/-- Removing the first occurrence of a character that occurs at most once removes all
its occurrences. -/
theorem replaceFirstChar_eq_filter (c : Char) (l : List Char) (h : l.count c ≤ 1) :
    replaceFirstChar c l = l.filter (fun x => x ≠ c) := by
  induction l with
  | nil => rfl
  | cons x xs ih =>
    by_cases hx : x = c
    · subst hx
      have h0 : xs.count x = 0 := by simpa using h
      have hnot : ∀ y ∈ xs, y ≠ x := by
        intro y hy hyx
        subst hyx
        exact List.count_eq_zero.1 h0 hy
      have hfil : xs.filter (fun y => y ≠ x) = xs :=
        List.filter_eq_self.2 (fun y hy => by simpa using hnot y hy)
      rw [List.filter_cons_of_neg (by simp), hfil]
      simp [replaceFirstChar]
    · have h1 : xs.count c ≤ 1 := by
        have : (x :: xs).count c = xs.count c := List.count_cons_of_ne (Ne.symm hx) xs
        omega
      simp [replaceFirstChar, hx, ih h1]

/-- The character removed is the first occurrence. -/
theorem replaceFirstChar_append (c : Char) (pre post : List Char) (h : c ∉ pre) :
    replaceFirstChar c (pre ++ c :: post) = pre ++ post := by
  induction pre with
  | nil => simp [replaceFirstChar]
  | cons x xs ih =>
    have hx : x ≠ c := fun hxc => h (by simp [hxc])
    have hxs : c ∉ xs := fun hmem => h (List.mem_cons_of_mem _ hmem)
    simp [replaceFirstChar, hx, ih hxs]

/-- C8, counterexample: of the two hyphens of `SHA-3-256` only the first is removed, so
the name selects `sha3-256` and not `sha3256`, the algorithm `sha3256` selects. -/
theorem only_first_hyphen_is_removed :
    hashAlgorithm (some "SHA-3-256") = "sha3-256" ∧
    toLowerCase (removeHyphens "SHA-3-256") = "sha3256" ∧
    hashAlgorithm (some "sha3256") = "sha3256" ∧
    hashAlgorithm (some "SHA-3-256") ≠ toLowerCase (removeHyphens "SHA-3-256") ∧
    hashAlgorithm (some "SHA-3-256") ≠ hashAlgorithm (some "sha3256") := by
  decide

/-- C8, amended: the algorithm name is `hash_type` with its first hyphen removed, then
lower-cased.  For a non-empty name with at most one hyphen this is the name lower-cased
with its hyphens removed, so `SHA-256` and `sha256` select the same algorithm; an absent
or empty `hash_type` selects `sha256`. -/
theorem hashAlgorithm_removes_first_hyphen (hash_type : String) :
    (hash_type ≠ "" → hash_type.data.count '-' ≤ 1 →
      hashAlgorithm (some hash_type) = toLowerCase (removeHyphens hash_type)) ∧
    (∀ pre post : String, hash_type = pre ++ "-" ++ post → '-' ∉ pre.data →
      hashAlgorithm (some hash_type) = toLowerCase (pre ++ post)) ∧
    hashAlgorithm (some "SHA-256") = hashAlgorithm (some "sha256") ∧
    hashAlgorithm none = "sha256" ∧ hashAlgorithm (some "") = "sha256" := by
  refine ⟨?_, ?_, by decide, by decide, by decide⟩
  · intro hne hcount
    simp only [hashAlgorithm, hne, if_false, removeHyphens,
      replaceFirstChar_eq_filter '-' hash_type.data hcount]
  · rintro pre post rfl hpre
    have hne : pre ++ "-" ++ post ≠ "" := by
      intro h
      have := congrArg String.length h
      simp only [String.length_append] at this
      have h1 : "-".length = 1 := by decide
      have h0 : "".length = 0 := by decide
      omega
    have hdata : (pre ++ "-" ++ post).data = pre.data ++ '-' :: post.data := by
      simp [String.data_append]
    simp only [hashAlgorithm, hne, if_false, hdata,
      replaceFirstChar_append '-' pre.data post.data hpre]
    rfl

/-- C8, amended, at `SHA-256`, which has one hyphen. -/
theorem hashAlgorithm_removes_first_hyphen_witness :
    hashAlgorithm (some "SHA-256") = toLowerCase (removeHyphens "SHA-256") ∧
    hashAlgorithm (some "SHA-3-256") = toLowerCase ("SHA" ++ "3-256") :=
  ⟨(hashAlgorithm_removes_first_hyphen "SHA-256").1 (by decide) (by decide),
   (hashAlgorithm_removes_first_hyphen "SHA-3-256").2.1 "SHA" "3-256" (by decide)
     (by decide)⟩

/-! ## C9 -/

/-- Construction ignores `merkle_root`: the verifier of the altered document is the
verifier of the original one around the altered document. -/
theorem bindedVerify_withMerkleRoot (doc : ProofDoc) (root : String) (v : Verifier)
    (hv : bindedVerify doc = .ok v) :
    bindedVerify (doc.withMerkleRoot root)
      = .ok ⟨v.proof.withMerkleRoot root, v.hashAlgorithm, v.dataUrl⟩ := by
  have hd : dataUrl ((unwrap doc).withMerkleRoot root) = dataUrl (unwrap doc) := rfl
  have hu : unwrap (doc.withMerkleRoot root) = (unwrap doc).withMerkleRoot root := by
    cases doc <;> rfl
  simp only [bindedVerify, hu, hd] at hv ⊢
  cases hurl : dataUrl (unwrap doc) with
  | error e => simp [hurl] at hv
  | ok url =>
    simp only [hurl, Except.ok.injEq] at hv ⊢
    subst hv
    rfl

/-- The `map` over the leaves does not read `merkle_root`. -/
theorem mapLeaves_withMerkleRoot (L : Lib) (v : Verifier) (root : String)
    (leaves : List Leaf) :
    mapLeaves L ⟨v.proof.withMerkleRoot root, v.hashAlgorithm, v.dataUrl⟩ leaves
      = mapLeaves L v leaves := by
  induction leaves with
  | nil => rfl
  | cons leaf rest ih => simp only [mapLeaves, ih, computeHash]

/-- The lookup does not read `merkle_root`. -/
theorem getTx_withMerkleRoot (W : World) (v : Verifier) (root : String) (s : TxState) :
    getTx W ⟨v.proof.withMerkleRoot root, v.hashAlgorithm, v.dataUrl⟩ s = getTx W v s :=
  rfl

/-- The state `isTxValid` leaves behind does not depend on `merkle_root`, nor does
whether it resolves. -/
theorem isTxValid_withMerkleRoot (W : World) (v : Verifier) (root : String)
    (s s1 : TxState) (b : Bool) (h : isTxValid W v s = (.ok b, s1)) :
    ∃ b2, isTxValid W ⟨v.proof.withMerkleRoot root, v.hashAlgorithm, v.dataUrl⟩ s
      = (.ok b2, s1) := by
  simp only [isTxValid, getTx_withMerkleRoot] at h ⊢
  rcases hg : getTx W v s with ⟨_ | tx, s2⟩
  · simp only [hg] at h ⊢
    split at h
    · rename_i h404
      simp only [Prod.mk.injEq, Except.ok.injEq] at h
      exact ⟨false, by simp [h404, h.2]⟩
    · simp at h
  · simp only [hg, Prod.mk.injEq, Except.ok.injEq] at h ⊢
    exact ⟨_, rfl, h.2⟩

/-- What a resolved `analyze` says about the checks it ran. -/
theorem analyze_ok_inv (L : Lib) (W : World) (v : Verifier) (s s2 : TxState)
    (r : Report) (h : analyze L W v s = (.ok r, s2)) :
    ∃ b1 b2 b3 b4 s1, isTargetHashValid L v = .ok b1 ∧ isMerkleRootValid L v = .ok b2 ∧
      isDataHashValid L W v = .ok b3 ∧ isTxValid W v s = (.ok b4, s1) ∧
      getConfirmations W v s1 = (.ok r.confirmations, s2) ∧
      r.validations = ⟨b1, b2, b3, b4⟩ := by
  unfold analyze at h
  cases h1 : isTargetHashValid L v with
  | error e => simp [h1] at h
  | ok b1 =>
    cases h2 : isMerkleRootValid L v with
    | error e => simp [h1, h2] at h
    | ok b2 =>
      rcases h4 : isTxValid W v s with ⟨_ | b4, s1⟩
      · cases h3 : isDataHashValid L W v <;> simp [h1, h2, h3, h4] at h
      · cases h3 : isDataHashValid L W v with
        | error e => simp [h1, h2, h3, h4] at h
        | ok b3 =>
          rcases hg : getConfirmations W v s1 with ⟨_ | c, s3⟩
          · simp [h1, h2, h3, h4, hg] at h
          · simp only [h1, h2, h3, h4, hg, Prod.mk.injEq, Except.ok.injEq] at h
            obtain ⟨rfl, rfl⟩ := h
            exact ⟨b1, b2, b3, b4, s1, rfl, rfl, rfl, rfl, hg, rfl⟩

/-- C9, counterexample: with the same network, replacing the root of the sample
document by `"00"` turns `isTxValid` from true to false, because `isTxValid` compares
the output scripts with `merkle_root`. -/
theorem tampered_root_changes_isTxValid :
    bindedVerify ((ProofDoc.bare sampleProof).withMerkleRoot "00") = .ok tamperedVerifier ∧
    (analyze sampleLib sampleWorld sampleVerifier TxState.init).1
      = .ok ⟨⟨true, true, true, true⟩, 4097, true⟩ ∧
    (analyze sampleLib sampleWorld tamperedVerifier TxState.init).1
      = .ok ⟨⟨true, false, true, false⟩, 4097, false⟩ := by
  decide

/-- C9, amended: altering only `header.merkle_root` keeps `dataUrl`, the outcome of
`isTargetHashValid`, of `isDataHashValid` and of `getConfirmations`, and when `analyze`
resolves on both documents the two reports agree on `isTargetHashValid`,
`isDataHashValid` and `confirmations` and leave the same cache behind. -/
theorem tampered_root_keeps_unrelated_fields (L : Lib) (W : World) (doc : ProofDoc)
    (root : String) (v : Verifier) (s : TxState) (hv : bindedVerify doc = .ok v) :
    ∃ v2, bindedVerify (doc.withMerkleRoot root) = .ok v2 ∧
      v2.dataUrl = v.dataUrl ∧
      isTargetHashValid L v2 = isTargetHashValid L v ∧
      isDataHashValid L W v2 = isDataHashValid L W v ∧
      getConfirmations W v2 s = getConfirmations W v s ∧
      ∀ r r2 s1 s2, analyze L W v s = (.ok r, s1) → analyze L W v2 s = (.ok r2, s2) →
        r2.validations.isTargetHashValid = r.validations.isTargetHashValid ∧
        r2.validations.isDataHashValid = r.validations.isDataHashValid ∧
        r2.confirmations = r.confirmations ∧ s2 = s1 := by
  have ht : isTargetHashValid L ⟨v.proof.withMerkleRoot root, v.hashAlgorithm, v.dataUrl⟩
      = isTargetHashValid L v := by
    simp only [isTargetHashValid, mapLeaves_withMerkleRoot]
    rfl
  have hd : ∀ W : World,
      isDataHashValid L W ⟨v.proof.withMerkleRoot root, v.hashAlgorithm, v.dataUrl⟩
      = isDataHashValid L W v := fun _ => rfl
  have hc : ∀ s, getConfirmations W ⟨v.proof.withMerkleRoot root, v.hashAlgorithm, v.dataUrl⟩ s
      = getConfirmations W v s := fun _ => rfl
  refine ⟨_, bindedVerify_withMerkleRoot doc root v hv, rfl, ht, hd W, hc s, ?_⟩
  intro r r2 s1 s2 hr hr2
  obtain ⟨b1, b2, b3, b4, t1, h1, -, h3, h4, hg, hval⟩ := analyze_ok_inv L W v s s1 r hr
  obtain ⟨c1, c2, c3, c4, t2, k1, -, k3, k4, kg, kval⟩ :=
    analyze_ok_inv L W _ s s2 r2 hr2
  obtain ⟨b5, h5⟩ := isTxValid_withMerkleRoot W v root s t1 b4 h4
  rw [h5] at k4
  obtain ⟨-, rfl⟩ := Prod.mk.inj k4
  rw [ht, h1] at k1
  rw [hd W, h3] at k3
  rw [hc t1, hg] at kg
  obtain ⟨hconf, hstate⟩ := Prod.mk.inj kg
  cases k1
  cases k3
  simp only [Except.ok.injEq] at hconf
  exact ⟨by rw [kval, hval], by rw [kval, hval], hconf.symm, hstate.symm⟩

/-- C9, amended, at the sample document with its root replaced by `"00"`. -/
theorem tampered_root_keeps_unrelated_fields_witness :
    ∃ v2, bindedVerify ((ProofDoc.bare sampleProof).withMerkleRoot "00") = .ok v2 ∧
      v2.dataUrl = sampleVerifier.dataUrl ∧
      isTargetHashValid sampleLib v2 = isTargetHashValid sampleLib sampleVerifier ∧
      isDataHashValid sampleLib sampleWorld v2
        = isDataHashValid sampleLib sampleWorld sampleVerifier ∧
      getConfirmations sampleWorld v2 TxState.init
        = getConfirmations sampleWorld sampleVerifier TxState.init ∧
      ∀ r r2 s1 s2, analyze sampleLib sampleWorld sampleVerifier TxState.init = (.ok r, s1) →
        analyze sampleLib sampleWorld v2 TxState.init = (.ok r2, s2) →
        r2.validations.isTargetHashValid = r.validations.isTargetHashValid ∧
        r2.validations.isDataHashValid = r.validations.isDataHashValid ∧
        r2.confirmations = r.confirmations ∧ s2 = s1 :=
  tampered_root_keeps_unrelated_fields sampleLib sampleWorld (.bare sampleProof) "00"
    sampleVerifier TxState.init (by decide)

/-! ## C10 -/

/-- An explicit, non-empty `extras.dataUrl` is the `dataUrl` of the verifier. -/
theorem dataUrl_explicit (doc : ProofDoc) (url : String)
    (h : (unwrap doc).extras.dataUrl = some url) (hne : url ≠ "") :
    ∃ v, bindedVerify doc = .ok v ∧ v.dataUrl = url := by
  simp [bindedVerify, dataUrl, h, hne]

/-- Without an explicit location, a first leaf that is a raw-data record gives the
registration URL of its `data`. -/
theorem dataUrl_of_record_leaf (doc : ProofDoc) (d : String) (rest : List Leaf)
    (h : (unwrap doc).extras.dataUrl = none)
    (hl : (unwrap doc).extras.leaves = .record d :: rest) :
    ∃ v, bindedVerify doc = .ok v ∧
      v.dataUrl = "https://api.binded.com/v1/registrations/sha1/" ++ d ++ "/download" := by
  have hbase : "https://api.binded.com/v1" ++ "/registrations/sha1/"
      = "https://api.binded.com/v1/registrations/sha1/" := by decide
  simp [bindedVerify, dataUrl, h, guessDataUrl, getSha1, hl, JSVal.toTemplate, hbase]

/-- C10, at a document whose first leaf is a digest string and that gives no location:
bare or in an envelope, the derived `dataUrl` holds the text `undefined` where the
claim puts the leaf, while `isTargetHashValid` accepts the same leaf as a digest. -/
theorem dataUrl_of_digest_leaf_is_undefined :
    bindedVerify (.bare digestLeafProof)
      = .ok ⟨digestLeafProof, "sha256",
          "https://api.binded.com/v1/registrations/sha1/undefined/download"⟩ ∧
    bindedVerify (.envelope digestLeafProof)
      = .ok ⟨digestLeafProof, "sha256",
          "https://api.binded.com/v1/registrations/sha1/undefined/download"⟩ ∧
    "https://api.binded.com/v1/registrations/sha1/undefined/download"
      ≠ "https://api.binded.com/v1/registrations/sha1/sha256(sha1())/download" ∧
    isTargetHashValid sampleLib ⟨digestLeafProof, "sha256",
        "https://api.binded.com/v1/registrations/sha1/undefined/download"⟩ = .ok true := by
  decide

end VerifyProof
